import Mathlib

/-!
Shallow embedding of the observation persistence and synthesis layer of
`cpi.py` (repository DashProject), together with theorems settling the
frozen claims about its specification.

Conventions of the embedding:
* Python floats are modelled as rationals (`ℚ`); `random.gauss mu sigma`
  is modelled as `mu + sigma * z` for an ambient standard-normal draw `z`
  supplied as an explicit function from row index to `ℚ`.
* The SQLite backend is modelled semantically: the table is a list of
  typed rows in rowid (= insertion) order, an `INSERT` appends, a
  `DELETE ... WHERE rowid in (SELECT ... LIMIT n)` removes the first `n`
  matching rows, and a statement with an empty `WHERE` clause is a
  backend syntax error (`Except.error`).
* `current_timestamp` is modelled as an explicit clock argument `now : ℕ`
  passed to the operations that stamp rows.
-/

/-- The single-quote character, spelled via its code point. -/
def quoteChar : Char := Char.ofNat 39

/-- Decimal digit characters of a natural number, most significant first,
mirroring Python `str(n)` for natural `n` (so `natChars 0 = [0-char]`). -/
def natChars (n : ℕ) : List Char :=
  if n = 0 then [Char.ofNat 48]
  else ((Nat.digits 10 n).reverse.map (fun d => Char.ofNat (48 + d)))

/-- Zero-pad a decimal rendering to width `w`, as Python `strftime`
field formatting does. -/
def padNum (w n : ℕ) : List Char :=
  List.replicate (w - (natChars n).length) (Char.ofNat 48) ++ natChars n

/-- Read a big-endian list of decimal digit characters back to a number. -/
def decodeNum (l : List Char) : ℕ :=
  l.foldl (fun acc c => 10 * acc + (c.toNat - 48)) 0

/-- A Python `datetime.date`: a plain calendar date. -/
structure PyDate where
  year : ℕ
  month : ℕ
  day : ℕ
deriving DecidableEq, Repr

/-- A Python `datetime.datetime`: a timestamp with microseconds. -/
structure PyDatetime where
  year : ℕ
  month : ℕ
  day : ℕ
  hour : ℕ
  minute : ℕ
  second : ℕ
  micro : ℕ
deriving DecidableEq, Repr

/-- The date part of a timestamp (Python `datetime` is a subtype of
`date`, so a `datetime` also answers date-shaped queries). -/
def PyDatetime.dateOf (t : PyDatetime) : PyDate :=
  ⟨t.year, t.month, t.day⟩

/-- `d.strftime("%Y-%m-%d")` from `cpi.sqlize`: zero-padded
year-month-day separated by dashes. -/
def fmtDate (d : PyDate) : List Char :=
  padNum 4 d.year ++ Char.ofNat 45 :: (padNum 2 d.month ++ Char.ofNat 45 :: padNum 2 d.day)

/-- `t.strftime("%Y-%m-%d %H:%M:%S.%f")` from `cpi.sqlize`. -/
def fmtDatetime (t : PyDatetime) : List Char :=
  fmtDate t.dateOf ++ Char.ofNat 32 ::
    (padNum 2 t.hour ++ Char.ofNat 58 ::
      (padNum 2 t.minute ++ Char.ofNat 58 ::
        (padNum 2 t.second ++ Char.ofNat 46 :: padNum 6 t.micro)))

/-- The scalar values reaching `cpi.sqlize`: Python `None`, `str`,
`int`, `float` (as `ℚ`), `bool`, `datetime.date`, `datetime.datetime`. -/
inductive SQLValue where
  | VNone : SQLValue
  | VStr (s : String) : SQLValue
  | VInt (i : ℤ) : SQLValue
  | VFloat (q : ℚ) : SQLValue
  | VBool (b : Bool) : SQLValue
  | VDate (d : PyDate) : SQLValue
  | VDatetime (t : PyDatetime) : SQLValue
deriving DecidableEq, Repr

namespace SQLValue

/-- Python `isinstance(v, str)`. -/
def is_str : SQLValue → Bool
  | VStr _ => true
  | _ => false

/-- Python `isinstance(v, datetime.datetime)`. -/
def is_datetime : SQLValue → Bool
  | VDatetime _ => true
  | _ => false

/-- Python `isinstance(v, datetime.date)`.  `datetime.datetime` is a
subclass of `datetime.date`, so a timestamp satisfies this check too:
the branch order in `sqlize` is what keeps timestamps away from the
plain-date rendering. -/
def is_date : SQLValue → Bool
  | VDate _ => true
  | VDatetime _ => true
  | _ => false

/-- Python `isinstance(v, bool)`. -/
def is_bool : SQLValue → Bool
  | VBool _ => true
  | _ => false

end SQLValue

/-- `v.replace("'", "''")` at the character level: every single quote in
the text is doubled, every other character is kept. -/
def pyReplaceChars (l : List Char) : List Char :=
  l.flatMap (fun c => if c = quoteChar then [quoteChar, quoteChar] else [c])

/-- Collapse doubled single quotes: how the SQL lexer reads the body of
a quoted literal back into text. -/
def unescapeChars : List Char → List Char
  | [] => []
  | c :: cs =>
    if c = quoteChar then
      match cs with
      | [] => [c]
      | _ :: cs2 => c :: unescapeChars cs2
    else c :: unescapeChars cs

/-- Python `str(i)` for an `int`. -/
def intRepr (i : ℤ) : String :=
  String.mk ((if i < 0 then [Char.ofNat 45] else []) ++ natChars i.natAbs)

/-- Stand-in for Python `str(float)`: a sign followed by the numerator
and denominator digits separated by a slash.  The exact decimal shape of
CPython float repr is immaterial to the program; what matters (and is
faithful) is that the rendering is made only of digits and the
characters `-` and `/` — never a quote and never the text `None`. -/
def floatRepr (q : ℚ) : String :=
  String.mk ((if q.num < 0 then [Char.ofNat 45] else []) ++
    (natChars q.num.natAbs ++ Char.ofNat 47 :: natChars q.den))

/-- Python `str(v)` for the values that can reach the final
`str(v)` call of `sqlize` unconverted (`int`, `float`, `None`). -/
def pyStr : SQLValue → String
  | SQLValue.VNone => "None"
  | SQLValue.VStr s => s
  | SQLValue.VInt i => intRepr i
  | SQLValue.VFloat q => floatRepr q
  | SQLValue.VBool b => if b then "True" else "False"
  | SQLValue.VDate d => String.mk (fmtDate d)
  | SQLValue.VDatetime t => String.mk (fmtDatetime t)

/-- Wrap a character list in single quotes, as the final
`f"'{v}'"` of `sqlize` does. -/
def sqWrap (l : List Char) : String :=
  String.mk (quoteChar :: (l ++ [quoteChar]))

/-- `cpi.sqlize`: convert a value to its SQL literal text.  The branch
structure mirrors the source `if/elif` chain (str, then datetime, then
date, then bool), followed by the final quote-if-string step.  Note the
datetime test precedes the date test, so timestamps are not caught by
the plain-date branch even though `is_date` is true of them. -/
def sqlize (v : SQLValue) : String :=
  if v.is_str then sqWrap (pyReplaceChars (pyStr v).data)
  else if v.is_datetime then
    match v with
    | SQLValue.VDatetime t => sqWrap (fmtDatetime t)
    | _ => pyStr v
  else if v.is_date then
    match v with
    | SQLValue.VDate d => sqWrap (fmtDate d)
    | SQLValue.VDatetime t => sqWrap (fmtDate t.dateOf)
    | _ => pyStr v
  else if v.is_bool then
    match v with
    | SQLValue.VBool b => intRepr (if b then 1 else 0)
    | _ => pyStr v
  else pyStr v

/-- The caller-side `Observation` object of `cpi.py`: the six
caller-supplied fields default to `None` (class attributes), and
`AddedOn` is a class attribute stamped once at class-creation time —
modelled as a `ℕ` timestamp, defaulting to `0`. -/
structure Observation where
  Date : Option PyDate := none
  Item : Option String := none
  Price : Option ℚ := none
  Category : Option String := none
  State : Option String := none
  City : Option String := none
  AddedOn : ℕ := 0
deriving DecidableEq, Repr

/-- A persisted row of the `Observation` table: the six data columns
plus the store-assigned `AddedOn` stamp (modelled as the `ℕ` clock value
of the backend at insert time, standing for `current_timestamp`). -/
structure StoredRow where
  Date : PyDate
  Item : String
  Price : ℚ
  Category : String
  State : String
  City : String
  AddedOn : ℕ
deriving DecidableEq, Repr

/-- The `row` list built inside `Observation.write`: the SQL literal
text of the six caller-supplied fields, in source order.  A `None`
field renders (via `str(None)`) as the four characters of `None`. -/
def obsRow (o : Observation) : List String :=
  [ sqlize (o.Date.elim SQLValue.VNone SQLValue.VDate),
    sqlize (o.Item.elim SQLValue.VNone SQLValue.VStr),
    sqlize (o.Price.elim SQLValue.VNone SQLValue.VFloat),
    sqlize (o.Category.elim SQLValue.VNone SQLValue.VStr),
    sqlize (o.State.elim SQLValue.VNone SQLValue.VStr),
    sqlize (o.City.elim SQLValue.VNone SQLValue.VStr) ]

/-- `Observation.write` with the guard `if "None" not in row` scoping
the INSERT, which is the behaviour the source comment
(`handle None values for empty inputs`) and the repository tests pin
down.  (As literally written, `cpi.py` lines 121-126 leave the `if`
with an empty body — an IndentationError — so the module does not even
import; see the claim records.)  The INSERT names only the six data
columns, so the backend's `AddedOn` default (`current_timestamp`,
modelled by `now`) stamps the new row; the caller-side `o.AddedOn`
attribute is never read. -/
def Observation.write (o : Observation) (now : ℕ) (rows : List StoredRow) : List StoredRow :=
  if "None" ∈ obsRow o then rows
  else
    match o.Date, o.Item, o.Price, o.Category, o.State, o.City with
    | some d, some it, some p, some c, some st, some ci =>
        rows ++ [⟨d, it, p, c, st, ci, now⟩]
    | _, _, _, _, _, _ => rows

/-- The class-level vocabulary of `Observation` (`category_item_map`,
`state_city_map`, `item_base_price`, `state_price_mu_std`), passed
explicitly as the classmethods' `cls` receives it.  The two price maps
are Python dicts only ever indexed at keys drawn from the vocabulary
lists, so they are modelled as total functions. -/
structure Vocab where
  category_item_map : List (String × List String)
  state_city_map : List (String × List String)
  item_base_price : String → ℚ
  state_price_mu_std : String → ℚ × ℚ

/-- Whether a year is a Gregorian leap year. -/
def isLeap (y : ℕ) : Bool :=
  (y % 4 == 0 && y % 100 != 0) || (y % 400 == 0)

/-- Number of days in a month. -/
def daysInMonth (y m : ℕ) : ℕ :=
  if m = 2 then (if isLeap y then 29 else 28)
  else if m = 4 ∨ m = 6 ∨ m = 9 ∨ m = 11 then 30
  else 31

/-- The calendar day before `d`. -/
def prevDay (d : PyDate) : PyDate :=
  if d.day > 1 then ⟨d.year, d.month, d.day - 1⟩
  else if d.month > 1 then ⟨d.year, d.month - 1, daysInMonth d.year (d.month - 1)⟩
  else ⟨d.year - 1, 12, 31⟩

/-- `pd.date_range(end=today, periods=10, freq="D")`: the ten
consecutive calendar days ending at (and including) `today`, oldest
first. -/
def dt_range (today : PyDate) : List PyDate :=
  ((List.range 10).map (fun i => prevDay^[i] today)).reverse

/-- One entry of the `combos` list comprehension of
`Observation.get_test_data` (a record before the `Price` column is
added). -/
structure Combo where
  Date : PyDate
  Category : String
  Item : String
  State : String
  City : String
deriving DecidableEq, Repr

/-- The `combos` list comprehension: one entry per
(category, item-in-category, state, city-in-state, day, replica)
with 5 replicas per combination, in the source's nesting order. -/
def combos (V : Vocab) (today : PyDate) : List Combo :=
  V.category_item_map.flatMap (fun ci =>
    ci.2.flatMap (fun item =>
      V.state_city_map.flatMap (fun sc =>
        sc.2.flatMap (fun city =>
          (dt_range today).flatMap (fun dt =>
            (List.range 5).map (fun _ => ⟨dt, ci.1, item, sc.1, city⟩))))))

/-- A generated test record: a combo plus its synthesized price. -/
structure TestRec where
  Date : PyDate
  Category : String
  Item : String
  State : String
  City : String
  Price : ℚ
deriving DecidableEq, Repr

/-- `Observation.get_test_data`: builds `combos`, sets each price to the
item base price, scales it by the state mean factor, then resamples it
as a Gaussian draw with that scaled price as mean and (scaled price ×
state std-dev) as standard deviation.  `random.gauss mu sigma` is
modelled as `mu + sigma * z i`, one independent standard-normal draw
`z i` per row index `i` (the `df.apply` is row-wise). -/
def Observation.get_test_data (V : Vocab) (today : PyDate) (z : ℕ → ℚ) : List TestRec :=
  (combos V today).enum.map (fun ic =>
    let c := ic.2
    let base := V.item_base_price c.Item
    let scaled := base * (V.state_price_mu_std c.State).1
    let price := scaled + scaled * (V.state_price_mu_std c.State).2 * z ic.1
    ⟨c.Date, c.Category, c.Item, c.State, c.City, price⟩)

/-- The vocabulary hard-coded on the `Observation` class in `cpi.py`. -/
def repoVocab : Vocab where
  category_item_map :=
    [("Food", ["USDA Grade-A eggs, Dozen"]),
     ("Fuel", ["Regular Gasoline, Gallon"]),
     ("Clothing", ["Wool Socks, Pair"])]
  state_city_map :=
    [("California", ["Los Angelos", "San Francisco"]),
     ("New York", ["New York City"]),
     ("Texas", ["Austin", "Dallas"])]
  item_base_price := fun it =>
    if it = "USDA Grade-A eggs, Dozen" then 299/100
    else if it = "Regular Gasoline, Gallon" then 465/100
    else if it = "Wool Socks, Pair" then 2195/100
    else 0
  state_price_mu_std := fun st =>
    if st = "California" then (3/2, 3/20)
    else if st = "New York" then (7/4, 1/4)
    else if st = "Texas" then (1, 1/10)
    else (0, 0)

/-- The fixture vocabulary of the end-to-end spec example: one category
with one item, one state with one city, base price 3.00, scale
(1.0, 0.0). -/
def fixtureVocab : Vocab where
  category_item_map := [("Food", ["Eggs"])]
  state_city_map := [("Texas", ["Dallas"])]
  item_base_price := fun it => if it = "Eggs" then 3 else 0
  state_price_mu_std := fun st => if st = "Texas" then (1, 0) else (0, 0)

/-- Total number of items across all categories (`ΣcategoryItems`). -/
def itemCount (V : Vocab) : ℕ :=
  (V.category_item_map.map (fun ci => ci.2.length)).sum

/-- Total number of cities across all states (`ΣstateCities`). -/
def cityCount (V : Vocab) : ℕ :=
  (V.state_city_map.map (fun sc => sc.2.length)).sum

/-- `Observation.create_table`: drops any existing table, recreates the
schema, and bulk-loads `get_test_data` via `df.to_sql(..., append)`.
The bulk INSERT names only the six data columns, so every seeded row
gets the schema's `AddedOn` default, modelled by the load-time clock
`now`.  The prior table contents `_old` are discarded entirely. -/
def Observation.create_table (V : Vocab) (today : PyDate) (z : ℕ → ℚ) (now : ℕ)
    (_old : List StoredRow) : List StoredRow :=
  (Observation.get_test_data V today z).map (fun r =>
    ⟨r.Date, r.Item, r.Price, r.Category, r.State, r.City, now⟩)

/-- `Observation.table_df`: `select * from Observation` reads the rows
in rowid (insertion) order; `.sort_index(ascending=False)` then reverses
them, so the result is newest-first. -/
def Observation.table_df (rows : List StoredRow) : List StoredRow :=
  rows.reverse

/-- The columns of the `Observation` table that a filter key can
resolve to. -/
inductive Col where
  | Date | Item | Price | Category | State | City
deriving DecidableEq, Repr

/-- Python `str.capitalize()`: first character upper-cased, all
remaining characters lower-cased (`k.capitalize()` in
`delete_matching`). -/
def pyCapitalize (s : String) : String :=
  match s.data with
  | [] => ""
  | c :: cs => String.mk (c.toUpper :: cs.map Char.toLower)

/-- Resolve a (capitalized) filter key to a schema column; any other
name leaves the generated SQL referring to a nonexistent column. -/
def colOf (s : String) : Option Col :=
  if s = "Date" then some Col.Date
  else if s = "Item" then some Col.Item
  else if s = "Price" then some Col.Price
  else if s = "Category" then some Col.Category
  else if s = "State" then some Col.State
  else if s = "City" then some Col.City
  else none

/-- The stored value of a row in a given column, as an SQL value. -/
def colVal (r : StoredRow) : Col → SQLValue
  | Col.Date => SQLValue.VDate r.Date
  | Col.Item => SQLValue.VStr r.Item
  | Col.Price => SQLValue.VFloat r.Price
  | Col.Category => SQLValue.VStr r.Category
  | Col.State => SQLValue.VStr r.State
  | Col.City => SQLValue.VStr r.City

/-- Resolve every filter key through `capitalize` to a column,
failing (backend `no such column` error) if any key resolves to no
schema column. -/
def resolveCols (kwargs : List (String × SQLValue)) : Option (List (Col × SQLValue)) :=
  kwargs.mapM (fun kv => (colOf (pyCapitalize kv.1)).map (fun c => (c, kv.2)))

/-- A row satisfies the conjunctive equality filter
`Col1=v1 AND Col2=v2 AND ...`. -/
def rowMatches (conds : List (Col × SQLValue)) (r : StoredRow) : Bool :=
  conds.all (fun cv => decide (colVal r cv.1 = cv.2))

/-- Semantics of `DELETE from T WHERE rowid in (SELECT rowid FROM T
WHERE cond LIMIT n)`: remove the first `n` rows (in rowid order)
satisfying `p`, keeping everything else in place. -/
def deleteFirstN (p : StoredRow → Bool) : ℕ → List StoredRow → List StoredRow
  | _, [] => []
  | 0, rows => rows
  | n + 1, r :: rs => if p r then deleteFirstN p n rs else r :: deleteFirstN p (n + 1) rs

/-- `Observation.delete_matching`: builds `Col=value` conditions from
the keyword arguments (keys run through `capitalize`), joins them with
`AND`, and deletes at most `n_to_delete` matching rows through a
rowid subselect.  With no keyword arguments the generated statement has
an empty `WHERE` condition, which the backend rejects as a syntax error
(the `order_to_delete_in` parameter of the source is never used). -/
def Observation.delete_matching (n_to_delete : ℕ) (kwargs : List (String × SQLValue))
    (rows : List StoredRow) : Except String (List StoredRow) :=
  if kwargs.isEmpty then Except.error "incomplete input: empty WHERE condition"
  else
    match resolveCols kwargs with
    | none => Except.error "no such column"
    | some conds => Except.ok (deleteFirstN (rowMatches conds) n_to_delete rows)

/-- A sequence of insert calls: each element pairs the observation with
the backend clock value (`current_timestamp`) at its insert. -/
def insertSeq (l : List (Observation × ℕ)) (rows : List StoredRow) : List StoredRow :=
  l.foldl (fun rs ot => Observation.write ot.1 ot.2 rs) rows

/-- Read a `YYYY-MM-DD` character rendering back into its three
numeric fields (fixed-width split at the two dashes). -/
def decodeDate (l : List Char) : ℕ × ℕ × ℕ :=
  (decodeNum (l.take 4), decodeNum ((l.drop 5).take 2), decodeNum (l.drop 8))

/-- A literal is quote-wrapped when it starts and ends with a single
quote. -/
def quoteWrapped (s : String) : Prop :=
  s.data.head? = some quoteChar ∧ s.data.getLast? = some quoteChar

/-- The non-price payload of a stored row: everything but the random
`Price`. -/
def dropPrice (r : StoredRow) : PyDate × String × String × String × String × ℕ :=
  (r.Date, r.Item, r.Category, r.State, r.City, r.AddedOn)

/-- A fully populated observation, as in the repository test
`test_save_observation_is_submitted`. -/
def obsSample : Observation :=
  { Date := some ⟨2022, 1, 10⟩, Item := some "Dozen eggs", Price := some (399/100),
    Category := some "Food", State := some "Texas", City := some "Dallas" }

/-- The observation of the repository test
`test_dont_save_if_None_value_is_submitted`: all fields set except a
null `City`. -/
def obsNullCity : Observation :=
  { Date := some ⟨2022, 1, 10⟩, Item := some "Dozen eggs", Price := some (399/100),
    Category := some "Food", State := some "Texas", City := none }

/-- A small concrete table: two Texas rows and one New York row. -/
def rowsSample : List StoredRow :=
  [⟨⟨2022, 1, 1⟩, "Eggs", 3, "Food", "Texas", "Dallas", 0⟩,
   ⟨⟨2022, 1, 2⟩, "Eggs", 4, "Food", "Texas", "Austin", 1⟩,
   ⟨⟨2022, 1, 3⟩, "Eggs", 5, "Food", "New York", "New York City", 2⟩]

/-! ### Character and digit lemmas -/

theorem toNat_digitChar {d : ℕ} (hd : d < 10) : (Char.ofNat (48 + d)).toNat = 48 + d := by
  interval_cases d <;> decide

theorem natChars_ne_nil (n : ℕ) : natChars n ≠ [] := by
  unfold natChars
  by_cases hn : n = 0 <;> simp [hn, Nat.digits_ne_nil_iff_ne_zero]

theorem mem_natChars_digit {n : ℕ} {c : Char} (hc : c ∈ natChars n) :
    48 ≤ c.toNat ∧ c.toNat ≤ 57 := by
  unfold natChars at hc
  by_cases hn : n = 0
  · rw [if_pos hn] at hc
    simp only [List.mem_singleton] at hc
    subst hc; constructor <;> decide
  · rw [if_neg hn] at hc
    simp only [List.mem_map, List.mem_reverse] at hc
    obtain ⟨d, hd, rfl⟩ := hc
    have hlt : d < 10 := Nat.digits_lt_base (by norm_num) hd
    rw [toNat_digitChar hlt]
    omega

theorem natChars_length_le {w n : ℕ} (hw : 1 ≤ w) (h : n < 10 ^ w) :
    (natChars n).length ≤ w := by
  unfold natChars
  by_cases hn : n = 0
  · simpa [hn] using hw
  · rw [if_neg hn]
    simp only [List.length_map, List.length_reverse]
    rw [Nat.digits_len 10 n (by norm_num) hn]
    have := Nat.log_lt_of_lt_pow hn h
    omega

theorem length_padNum_of_lt {w n : ℕ} (hw : 1 ≤ w) (h : n < 10 ^ w) :
    (padNum w n).length = w := by
  have hle := natChars_length_le hw h
  simp [padNum]
  omega

theorem foldl_decode_digits (L : List ℕ) (a : ℕ) :
    L.reverse.foldl (fun acc d => 10 * acc + d) a = a * 10 ^ L.length + Nat.ofDigits 10 L := by
  induction L generalizing a with
  | nil => simp [Nat.ofDigits]
  | cons d L ih =>
      rw [List.reverse_cons, List.foldl_append, ih]
      simp only [List.foldl_cons, List.foldl_nil, Nat.ofDigits_cons, List.length_cons]
      ring

theorem decodeNum_natChars (n : ℕ) : decodeNum (natChars n) = n := by
  unfold decodeNum natChars
  by_cases hn : n = 0
  · rw [if_pos hn]; subst hn; decide
  · rw [if_neg hn]
    rw [List.foldl_map]
    have hext : List.foldl (fun acc d => 10 * acc + ((Char.ofNat (48 + d)).toNat - 48)) 0
        ((Nat.digits 10 n).reverse)
        = List.foldl (fun acc d => 10 * acc + d) 0 ((Nat.digits 10 n).reverse) := by
      refine List.foldl_ext _ _ 0 ?_
      intro a d hd
      rw [List.mem_reverse] at hd
      have hlt : d < 10 := Nat.digits_lt_base (by norm_num) hd
      rw [toNat_digitChar hlt]
      omega
    rw [hext, foldl_decode_digits, Nat.ofDigits_digits]
    simp

theorem foldl_decode_zeros (k : ℕ) :
    List.foldl (fun acc c => 10 * acc + (c.toNat - 48)) 0
      (List.replicate k (Char.ofNat 48)) = 0 := by
  induction k with
  | zero => rfl
  | succ k ih => rw [List.replicate_succ, List.foldl_cons]; simpa using ih

theorem decodeNum_padNum (w n : ℕ) : decodeNum (padNum w n) = n := by
  unfold padNum
  unfold decodeNum
  rw [List.foldl_append, foldl_decode_zeros]
  exact decodeNum_natChars n


/-! ### `sqlize` shape lemmas -/

theorem sqlize_VStr (s : String) :
    sqlize (SQLValue.VStr s) = sqWrap (pyReplaceChars s.data) := rfl

theorem sqlize_VDate (d : PyDate) :
    sqlize (SQLValue.VDate d) = sqWrap (fmtDate d) := rfl

theorem sqlize_VDatetime (t : PyDatetime) :
    sqlize (SQLValue.VDatetime t) = sqWrap (fmtDatetime t) := rfl

theorem sqlize_VNone : sqlize SQLValue.VNone = "None" := rfl

theorem sqlize_VInt (i : ℤ) : sqlize (SQLValue.VInt i) = intRepr i := rfl

theorem sqlize_VFloat (q : ℚ) : sqlize (SQLValue.VFloat q) = floatRepr q := rfl

theorem natChars_one : natChars 1 = [Char.ofNat 49] := by
  unfold natChars
  rw [if_neg one_ne_zero, Nat.digits_def' (by norm_num : (1:ℕ) < 10) one_pos]
  norm_num

theorem intRepr_one : intRepr 1 = "1" := by
  unfold intRepr
  rw [if_neg (by norm_num), show ((1:ℤ).natAbs) = 1 from rfl, natChars_one]
  decide

theorem intRepr_zero : intRepr 0 = "0" := by
  unfold intRepr
  rw [if_neg (by norm_num), show ((0:ℤ).natAbs) = 0 from rfl]
  unfold natChars
  rw [if_pos rfl]
  decide

theorem sqlize_VBool (b : Bool) :
    sqlize (SQLValue.VBool b) = if b then "1" else "0" := by
  cases b
  · show intRepr 0 = "0"
    exact intRepr_zero
  · show intRepr 1 = "1"
    exact intRepr_one

/-! ### Escape / unescape roundtrip -/

theorem pyReplace_cons (c : Char) (cs : List Char) :
    pyReplaceChars (c :: cs)
      = (if c = quoteChar then [quoteChar, quoteChar] else [c]) ++ pyReplaceChars cs := by
  simp [pyReplaceChars]

theorem unescapeChars_two_of_quote (c2 : Char) (cs : List Char) :
    unescapeChars (quoteChar :: c2 :: cs) = quoteChar :: unescapeChars cs := by
  rw [unescapeChars.eq_def]
  simp only [if_pos rfl, if_true]

theorem unescapeChars_cons_of_ne {c : Char} (hc : c ≠ quoteChar) (cs : List Char) :
    unescapeChars (c :: cs) = c :: unescapeChars cs := by
  rw [unescapeChars.eq_def]
  simp only [hc, if_false, ite_false]

/-- Roundtrip for the quote-doubling escape: reading the escaped body
back through the SQL lexer recovers the original text. -/
theorem unescape_pyReplace (l : List Char) : unescapeChars (pyReplaceChars l) = l := by
  induction l with
  | nil => rfl
  | cons c cs ih =>
      rw [pyReplace_cons]
      by_cases hc : c = quoteChar
      · subst hc
        rw [if_pos rfl]
        show unescapeChars (quoteChar :: quoteChar :: pyReplaceChars cs) = quoteChar :: cs
        rw [unescapeChars_two_of_quote, ih]
      · rw [if_neg hc, List.singleton_append, unescapeChars_cons_of_ne hc, ih]

/-! ### No encoded non-null value reads back as the text `None` -/

theorem None_data_eq :
    ("None" : String).data
      = [Char.ofNat 78, Char.ofNat 111, Char.ofNat 110, Char.ofNat 101] := by
  decide

theorem sqWrap_ne_None (l : List Char) : sqWrap l ≠ "None" := by
  intro h
  have h2 : quoteChar :: (l ++ [quoteChar]) = ("None" : String).data :=
    congrArg String.data h
  rw [None_data_eq] at h2
  injection h2 with hc _
  exact absurd hc (by decide)

theorem head_natChars_digit (n : ℕ) :
    ∃ c cs, natChars n = c :: cs ∧ 48 ≤ c.toNat ∧ c.toNat ≤ 57 := by
  obtain ⟨c, cs, hcs⟩ := List.exists_cons_of_ne_nil (natChars_ne_nil n)
  have hmem : c ∈ natChars n := by
    rw [hcs]
    exact List.mem_cons_self c cs
  have hd := mem_natChars_digit hmem
  exact ⟨c, cs, hcs, hd.1, hd.2⟩

theorem floatRepr_ne_None (q : ℚ) : floatRepr q ≠ "None" := by
  intro h
  have h2 : ((if q.num < 0 then [Char.ofNat 45] else []) ++
      (natChars q.num.natAbs ++ Char.ofNat 47 :: natChars q.den))
        = ("None" : String).data := congrArg String.data h
  rw [None_data_eq] at h2
  obtain ⟨c, cs, hcs, hc48, hc57⟩ := head_natChars_digit q.num.natAbs
  by_cases hq : q.num < 0
  · rw [if_pos hq, List.singleton_append] at h2
    injection h2 with hc _
    exact absurd hc (by decide)
  · rw [if_neg hq, List.nil_append, hcs, List.cons_append] at h2
    injection h2 with hc _
    rw [hc] at hc57
    revert hc57
    decide

/-! ### The null guard of `Observation.write` -/

theorem None_eq_sqlize_date_iff (x : Option PyDate) :
    ("None" = sqlize (x.elim SQLValue.VNone SQLValue.VDate)) ↔ x = none := by
  cases x with
  | none => simp [sqlize_VNone]
  | some d =>
      show ("None" = sqlize (SQLValue.VDate d)) ↔ some d = none
      rw [sqlize_VDate]
      constructor
      · intro h
        exact absurd h.symm (sqWrap_ne_None _)
      · intro h
        exact absurd h (by simp)

theorem None_eq_sqlize_str_iff (x : Option String) :
    ("None" = sqlize (x.elim SQLValue.VNone SQLValue.VStr)) ↔ x = none := by
  cases x with
  | none => simp [sqlize_VNone]
  | some s =>
      show ("None" = sqlize (SQLValue.VStr s)) ↔ some s = none
      rw [sqlize_VStr]
      constructor
      · intro h
        exact absurd h.symm (sqWrap_ne_None _)
      · intro h
        exact absurd h (by simp)

theorem None_eq_sqlize_float_iff (x : Option ℚ) :
    ("None" = sqlize (x.elim SQLValue.VNone SQLValue.VFloat)) ↔ x = none := by
  cases x with
  | none => simp [sqlize_VNone]
  | some q =>
      show ("None" = sqlize (SQLValue.VFloat q)) ↔ some q = none
      rw [sqlize_VFloat]
      constructor
      · intro h
        exact absurd h.symm (floatRepr_ne_None _)
      · intro h
        exact absurd h (by simp)

/-- The string-sentinel guard of `write` fires exactly when one of the
six caller-supplied fields is null: no non-null value of any of the six
field types encodes to the four-character text `None`. -/
theorem None_mem_obsRow_iff (o : Observation) :
    "None" ∈ obsRow o
      ↔ (o.Date = none ∨ o.Item = none ∨ o.Price = none ∨
          o.Category = none ∨ o.State = none ∨ o.City = none) := by
  unfold obsRow
  simp only [List.mem_cons, List.not_mem_nil, or_false]
  rw [None_eq_sqlize_date_iff, None_eq_sqlize_str_iff, None_eq_sqlize_float_iff,
    None_eq_sqlize_str_iff, None_eq_sqlize_str_iff, None_eq_sqlize_str_iff]

/-- With any null field, `write` leaves the table exactly as it was. -/
theorem write_of_none {o : Observation} (now : ℕ) (rows : List StoredRow)
    (h : o.Date = none ∨ o.Item = none ∨ o.Price = none ∨
      o.Category = none ∨ o.State = none ∨ o.City = none) :
    o.write now rows = rows := by
  unfold Observation.write
  rw [if_pos ((None_mem_obsRow_iff o).mpr h)]

/-- With all six fields present, `write` appends exactly one row whose
data columns are the caller values and whose `AddedOn` is the backend
clock. -/
theorem write_of_all_some {o : Observation} (now : ℕ) (rows : List StoredRow)
    {d : PyDate} {it : String} {p : ℚ} {c st ci : String}
    (hD : o.Date = some d) (hI : o.Item = some it) (hP : o.Price = some p)
    (hC : o.Category = some c) (hS : o.State = some st) (hCi : o.City = some ci) :
    o.write now rows = rows ++ [⟨d, it, p, c, st, ci, now⟩] := by
  have hguard : ¬ ("None" ∈ obsRow o) := by
    rw [None_mem_obsRow_iff]
    simp [hD, hI, hP, hC, hS, hCi]
  unfold Observation.write
  rw [if_neg hguard]
  simp only [hD, hI, hP, hC, hS, hCi]

/-- `write` either leaves the table unchanged or appends one row
stamped with the backend clock. -/
theorem write_cases (o : Observation) (now : ℕ) (rows : List StoredRow) :
    o.write now rows = rows ∨
      ∃ r : StoredRow, r.AddedOn = now ∧ o.write now rows = rows ++ [r] := by
  by_cases hg : "None" ∈ obsRow o
  · left
    unfold Observation.write
    rw [if_pos hg]
  · right
    have hne := hg
    rw [None_mem_obsRow_iff] at hne
    push_neg at hne
    obtain ⟨hD, hI, hP, hC, hS, hCi⟩ := hne
    obtain ⟨d, hd⟩ := Option.ne_none_iff_exists.mp hD
    obtain ⟨it, hit⟩ := Option.ne_none_iff_exists.mp hI
    obtain ⟨p, hp⟩ := Option.ne_none_iff_exists.mp hP
    obtain ⟨c, hc⟩ := Option.ne_none_iff_exists.mp hC
    obtain ⟨st, hst⟩ := Option.ne_none_iff_exists.mp hS
    obtain ⟨ci, hci⟩ := Option.ne_none_iff_exists.mp hCi
    exact ⟨⟨d, it, p, c, st, ci, now⟩, rfl,
      write_of_all_some now rows hd.symm hit.symm hp.symm hc.symm hst.symm hci.symm⟩

/-- The caller-side `AddedOn` attribute of the observation object is
never read by `write`: the stored stamp comes from the backend clock
alone. -/
theorem write_ignores_caller_AddedOn (o : Observation) (x now : ℕ)
    (rows : List StoredRow) :
    Observation.write { o with AddedOn := x } now rows = o.write now rows := rfl

theorem insertSeq_nil (rows : List StoredRow) : insertSeq [] rows = rows := rfl

theorem insertSeq_cons (ot : Observation × ℕ) (l : List (Observation × ℕ))
    (rows : List StoredRow) :
    insertSeq (ot :: l) rows = insertSeq l (ot.1.write ot.2 rows) := rfl

/-- If the backend clock readings across a sequence of inserts are
non-decreasing, and the starting table is already stamped consistently,
then the stored `AddedOn` column stays sorted in insertion order. -/
theorem insertSeq_AddedOn_sorted (l : List (Observation × ℕ)) (rows : List StoredRow)
    (hrows : (rows.map StoredRow.AddedOn).Sorted (· ≤ ·))
    (hbound : ∀ r ∈ rows, ∀ ot ∈ l, r.AddedOn ≤ ot.2)
    (hl : (l.map Prod.snd).Sorted (· ≤ ·)) :
    ((insertSeq l rows).map StoredRow.AddedOn).Sorted (· ≤ ·) := by
  induction l generalizing rows with
  | nil => exact hrows
  | cons ot l ih =>
      rw [insertSeq_cons]
      rw [List.map_cons, List.Sorted] at hl
      rw [List.pairwise_cons] at hl
      rcases write_cases ot.1 ot.2 rows with hw | ⟨r, hr, hw⟩
      · rw [hw]
        refine ih rows hrows ?_ hl.2
        intro r hrmem ot2 hot2
        exact hbound r hrmem ot2 (List.mem_cons_of_mem ot hot2)
      · rw [hw]
        refine ih (rows ++ [r]) ?_ ?_ hl.2
        · rw [List.map_append, List.Sorted, List.pairwise_append]
          refine ⟨hrows, by simp, ?_⟩
          intro a ha b hb
          simp only [List.map_cons, List.map_nil, List.mem_singleton] at hb
          obtain ⟨ra, hra, hraa⟩ := List.mem_map.mp ha
          subst hb
          subst hraa
          rw [hr]
          exact hbound ra hra ot (List.mem_cons_self ot l)
        · intro r2 hr2 ot2 hot2
          rcases List.mem_append.mp hr2 with h2 | h2
          · exact hbound r2 h2 ot2 (List.mem_cons_of_mem ot hot2)
          · rw [List.mem_singleton] at h2
            subst h2
            rw [hr]
            exact hl.1 ot2.2 (List.mem_map_of_mem Prod.snd hot2)

/-! ### `deleteFirstN` lemmas -/

theorem deleteFirstN_countP (p : StoredRow → Bool) (n : ℕ) (l : List StoredRow) :
    (deleteFirstN p n l).countP p = l.countP p - min n (l.countP p) := by
  induction l generalizing n with
  | nil => cases n <;> simp [deleteFirstN]
  | cons r rs ih =>
      cases n with
      | zero => simp [deleteFirstN]
      | succ n =>
          by_cases hp : p r
          · rw [show deleteFirstN p (n + 1) (r :: rs) = deleteFirstN p n rs from by
              simp [deleteFirstN, hp]]
            rw [ih, List.countP_cons_of_pos _ _ hp]
            omega
          · rw [show deleteFirstN p (n + 1) (r :: rs) = r :: deleteFirstN p (n + 1) rs from by
              simp [deleteFirstN, hp]]
            rw [List.countP_cons_of_neg _ _ hp, ih, List.countP_cons_of_neg _ _ hp]

theorem deleteFirstN_filter_not (p : StoredRow → Bool) (n : ℕ) (l : List StoredRow) :
    (deleteFirstN p n l).filter (fun r => ! p r) = l.filter (fun r => ! p r) := by
  induction l generalizing n with
  | nil => cases n <;> simp [deleteFirstN]
  | cons r rs ih =>
      cases n with
      | zero => simp [deleteFirstN]
      | succ n =>
          by_cases hp : p r
          · rw [show deleteFirstN p (n + 1) (r :: rs) = deleteFirstN p n rs from by
              simp [deleteFirstN, hp]]
            rw [ih, List.filter_cons_of_neg (by simp [hp])]
          · rw [show deleteFirstN p (n + 1) (r :: rs) = r :: deleteFirstN p (n + 1) rs from by
              simp [deleteFirstN, hp]]
            rw [List.filter_cons_of_pos (by simp [hp]), ih,
              List.filter_cons_of_pos (by simp [hp])]

theorem deleteFirstN_length (p : StoredRow → Bool) (n : ℕ) (l : List StoredRow) :
    (deleteFirstN p n l).length = l.length - min n (l.countP p) := by
  induction l generalizing n with
  | nil => cases n <;> simp [deleteFirstN]
  | cons r rs ih =>
      cases n with
      | zero => simp [deleteFirstN]
      | succ n =>
          by_cases hp : p r
          · rw [show deleteFirstN p (n + 1) (r :: rs) = deleteFirstN p n rs from by
              simp [deleteFirstN, hp]]
            rw [ih, List.countP_cons_of_pos _ _ hp, List.length_cons]
            have hc : rs.countP p ≤ rs.length := List.countP_le_length p
            omega
          · rw [show deleteFirstN p (n + 1) (r :: rs) = r :: deleteFirstN p (n + 1) rs from by
              simp [deleteFirstN, hp]]
            rw [List.length_cons, ih, List.countP_cons_of_neg _ _ hp, List.length_cons]
            have hc : rs.countP p ≤ rs.length := List.countP_le_length p
            omega

/-! ### Synthetic data generator lemmas -/

theorem dt_range_length (today : PyDate) : (dt_range today).length = 10 := by
  simp [dt_range]

theorem length_flatMap_const {α β : Type} (l : List α) (f : α → List β) (c : ℕ)
    (h : ∀ a ∈ l, (f a).length = c) : (l.flatMap f).length = l.length * c := by
  induction l with
  | nil => simp
  | cons a l ih =>
      rw [List.flatMap_cons, List.length_append, h a (List.mem_cons_self a l),
        ih (fun a2 ha2 => h a2 (List.mem_cons_of_mem a ha2)), List.length_cons]
      ring

theorem length_combos (V : Vocab) (today : PyDate) :
    (combos V today).length = itemCount V * cityCount V * 10 * 5 := by
  unfold combos
  have hcity : ∀ sc : String × List String, ∀ city ∈ sc.2,
      ((dt_range today).flatMap (fun dt =>
        (List.range 5).map (fun _ =>
          (⟨dt, "", "", sc.1, city⟩ : Combo)))).length = 50 := by
    intro sc city _
    rw [length_flatMap_const _ _ 5 (fun dt _ => by simp), dt_range_length]
  have hstate : ∀ ci : String × List String, ∀ item ∈ ci.2,
      (V.state_city_map.flatMap (fun sc =>
        sc.2.flatMap (fun city =>
          (dt_range today).flatMap (fun dt =>
            (List.range 5).map (fun _ =>
              (⟨dt, ci.1, item, sc.1, city⟩ : Combo)))))).length
        = cityCount V * 50 := by
    intro ci item _
    rw [List.length_flatMap]
    unfold cityCount
    rw [← List.sum_map_mul_right]
    congr 1
    refine List.map_congr_left ?_
    intro sc _
    simp only [Function.comp]
    rw [length_flatMap_const _ _ 50]
    intro city _
    rw [length_flatMap_const _ _ 5 (fun dt _ => by simp), dt_range_length]
  have hcat :
      (V.category_item_map.flatMap (fun ci =>
        ci.2.flatMap (fun item =>
          V.state_city_map.flatMap (fun sc =>
            sc.2.flatMap (fun city =>
              (dt_range today).flatMap (fun dt =>
                (List.range 5).map (fun _ =>
                  (⟨dt, ci.1, item, sc.1, city⟩ : Combo)))))))).length
        = itemCount V * (cityCount V * 50) := by
    rw [List.length_flatMap]
    unfold itemCount
    rw [← List.sum_map_mul_right]
    congr 1
    refine List.map_congr_left ?_
    intro ci _
    simp only [Function.comp]
    exact length_flatMap_const _ _ (cityCount V * 50) (hstate ci)
  rw [hcat]
  ring

theorem get_test_data_length (V : Vocab) (today : PyDate) (z : ℕ → ℚ) :
    (Observation.get_test_data V today z).length = itemCount V * cityCount V * 10 * 5 := by
  unfold Observation.get_test_data
  rw [List.length_map, List.enum_length]
  exact length_combos V today

theorem mem_combos {V : Vocab} {today : PyDate} {c : Combo} (h : c ∈ combos V today) :
    ∃ ci ∈ V.category_item_map, ∃ item ∈ ci.2, ∃ sc ∈ V.state_city_map, ∃ city ∈ sc.2,
      ∃ dt ∈ dt_range today, c = ⟨dt, ci.1, item, sc.1, city⟩ := by
  unfold combos at h
  rw [List.mem_flatMap] at h
  obtain ⟨ci, hci, h⟩ := h
  rw [List.mem_flatMap] at h
  obtain ⟨item, hitem, h⟩ := h
  rw [List.mem_flatMap] at h
  obtain ⟨sc, hsc, h⟩ := h
  rw [List.mem_flatMap] at h
  obtain ⟨city, hcity, h⟩ := h
  rw [List.mem_flatMap] at h
  obtain ⟨dt, hdt, h⟩ := h
  rw [List.mem_map] at h
  obtain ⟨-, -, h⟩ := h
  exact ⟨ci, hci, item, hitem, sc, hsc, city, hcity, dt, hdt, h.symm⟩

/-- Every generated record's fields come from the vocabulary maps, and
its price is the scaled base price resampled through one Gaussian
draw. -/
theorem mem_get_test_data {V : Vocab} {today : PyDate} {z : ℕ → ℚ} {r : TestRec}
    (h : r ∈ Observation.get_test_data V today z) :
    (∃ ci ∈ V.category_item_map, r.Category = ci.1 ∧ r.Item ∈ ci.2) ∧
    (∃ sc ∈ V.state_city_map, r.State = sc.1 ∧ r.City ∈ sc.2) ∧
    (∃ i : ℕ,
      r.Price = V.item_base_price r.Item * (V.state_price_mu_std r.State).1
        + V.item_base_price r.Item * (V.state_price_mu_std r.State).1
            * (V.state_price_mu_std r.State).2 * z i) := by
  unfold Observation.get_test_data at h
  rw [List.mem_map] at h
  obtain ⟨ic, hic, heq⟩ := h
  have hc : ic.2 ∈ combos V today := by
    have h2 := List.mem_map_of_mem Prod.snd hic
    rwa [List.enum_map_snd] at h2
  obtain ⟨ci, hci, item, hitem, sc, hsc, city, hcity, dt, hdt, hceq⟩ := mem_combos hc
  subst heq
  rw [hceq]
  refine ⟨⟨ci, hci, rfl, hitem⟩, ⟨sc, hsc, rfl, hcity⟩, ⟨ic.1, by ring⟩⟩

/-- Positivity of one resampled price: if the mean is positive, the
relative standard deviation is at most a quarter, and the draw is no
more than four standard deviations below the mean, the price is
positive. -/
theorem gauss_price_pos {m s zi : ℚ} (hm : 0 < m) (hs0 : 0 < s) (hs : s ≤ 1/4)
    (hz : -4 < zi) : 0 < m + m * s * zi := by
  have h1 : s * (-4) < s * zi := mul_lt_mul_of_pos_left hz hs0
  have h2 : (-1 : ℚ) ≤ s * (-4) := by nlinarith
  have h3 : 0 < 1 + s * zi := by linarith
  calc (0:ℚ) < m * (1 + s * zi) := mul_pos hm h3
  _ = m + m * s * zi := by ring

/-! ### Claim theorems -/

/-- C1: for every Observation with at least one of the six
caller-supplied fields null, the (intended) insert is a silent no-op:
no row is written and a subsequent `table_df` returns a table of
unchanged contents and count.  (In the source as committed the guard
`if "None" not in row` at `cpi.py:121` has an empty body — an
IndentationError — so this holds of the corrected conditional the
source comment and the repository test pin down.) -/
theorem write_null_field_is_noop (o : Observation) (now : ℕ) (rows : List StoredRow)
    (h : o.Date = none ∨ o.Item = none ∨ o.Price = none ∨
      o.Category = none ∨ o.State = none ∨ o.City = none) :
    o.write now rows = rows ∧
    Observation.table_df (o.write now rows) = Observation.table_df rows ∧
    (Observation.table_df (o.write now rows)).length = (Observation.table_df rows).length := by
  have hw := write_of_none now rows h
  exact ⟨hw, by rw [hw], by rw [hw]⟩

theorem write_null_field_is_noop_witness :
    obsNullCity.write 5 rowsSample = rowsSample ∧
    Observation.table_df (obsNullCity.write 5 rowsSample) = Observation.table_df rowsSample ∧
    (Observation.table_df (obsNullCity.write 5 rowsSample)).length
      = (Observation.table_df rowsSample).length :=
  write_null_field_is_noop obsNullCity 5 rowsSample
    (Or.inr (Or.inr (Or.inr (Or.inr (Or.inr rfl)))))

/-- C3: for every Observation with all six fields non-null, the
(intended) insert appends exactly one row, a subsequent `table_df` has
count one larger, and the new row — the head of the newest-first
result — carries exactly the inserted `Date`, `Item`, `Price`,
`Category`, `State` and `City` (prices are exact rationals in the
model, subsuming the floating tolerance).  (Holds of the corrected
conditional; as committed, `cpi.py` does not parse.) -/
theorem write_all_some_roundtrip (o : Observation) (now : ℕ) (rows : List StoredRow)
    {d : PyDate} {it : String} {p : ℚ} {c st ci : String}
    (hD : o.Date = some d) (hI : o.Item = some it) (hP : o.Price = some p)
    (hC : o.Category = some c) (hS : o.State = some st) (hCi : o.City = some ci) :
    (Observation.table_df (o.write now rows)).length
      = (Observation.table_df rows).length + 1 ∧
    (Observation.table_df (o.write now rows)).head? = some ⟨d, it, p, c, st, ci, now⟩ := by
  rw [write_of_all_some now rows hD hI hP hC hS hCi]
  unfold Observation.table_df
  constructor
  · simp
  · rw [List.reverse_append]
    rfl

theorem write_all_some_roundtrip_witness :
    (Observation.table_df (obsSample.write 7 rowsSample)).length
      = (Observation.table_df rowsSample).length + 1 ∧
    (Observation.table_df (obsSample.write 7 rowsSample)).head?
      = some ⟨⟨2022, 1, 10⟩, "Dozen eggs", 399/100, "Food", "Texas", "Dallas", 7⟩ :=
  write_all_some_roundtrip obsSample 7 rowsSample rfl rfl rfl rfl rfl rfl

/-- C7: the stored `AddedOn` stamp is assigned by the store at insert
time: the insert statement of `write` names only the six data columns,
so the schema default (the backend clock) fills `AddedOn`; the
caller-side `AddedOn` attribute is never read; and across any sequence
of inserts performed while the backend clock is non-decreasing the
stored `AddedOn` column is non-decreasing in insertion order.  (Holds
of the corrected conditional; as committed, `cpi.py` does not
parse.) -/
theorem addedOn_store_assigned :
    (∀ (o : Observation) (x now : ℕ) (rows : List StoredRow),
      Observation.write { o with AddedOn := x } now rows = o.write now rows) ∧
    (∀ (o : Observation) (now : ℕ) (rows : List StoredRow) (r : StoredRow),
      r ∈ o.write now rows → r ∈ rows ∨ r.AddedOn = now) ∧
    (∀ l : List (Observation × ℕ), (l.map Prod.snd).Sorted (· ≤ ·) →
      ((insertSeq l []).map StoredRow.AddedOn).Sorted (· ≤ ·)) := by
  refine ⟨write_ignores_caller_AddedOn, ?_, ?_⟩
  · intro o now rows r hr
    rcases write_cases o now rows with hw | ⟨r2, hr2, hw⟩
    · rw [hw] at hr
      exact Or.inl hr
    · rw [hw] at hr
      rcases List.mem_append.mp hr with h2 | h2
      · exact Or.inl h2
      · rw [List.mem_singleton] at h2
        subst h2
        exact Or.inr hr2
  · intro l hl
    exact insertSeq_AddedOn_sorted l [] (by simp) (by simp) hl

theorem addedOn_store_assigned_witness :
    Observation.write { obsSample with AddedOn := 42 } 5 rowsSample
      = obsSample.write 5 rowsSample ∧
    ((insertSeq [(obsSample, 3), (obsNullCity, 8)] []).map StoredRow.AddedOn).Sorted
      (· ≤ ·) := by
  refine ⟨addedOn_store_assigned.1 obsSample 42 5 rowsSample, ?_⟩
  refine addedOn_store_assigned.2.2 [(obsSample, 3), (obsNullCity, 8)] ?_
  simp [List.Sorted]

/-- C9: for every store state, `table_df` returns all stored rows —
none omitted, none duplicated — in exact reverse of the stored
(insertion) order. -/
theorem table_df_reverses (rows : List StoredRow) :
    (Observation.table_df rows).length = rows.length ∧
    (∀ r : StoredRow, (Observation.table_df rows).count r = rows.count r) ∧
    (∀ i : ℕ, i < rows.length →
      (Observation.table_df rows)[i]? = rows[rows.length - 1 - i]?) := by
  unfold Observation.table_df
  refine ⟨List.length_reverse rows, fun r => List.count_reverse r rows, ?_⟩
  intro i hi
  exact List.getElem?_reverse hi

theorem table_df_reverses_witness :
    (Observation.table_df rowsSample).length = rowsSample.length ∧
    (Observation.table_df rowsSample)[0]? = rowsSample[2]? := by
  refine ⟨(table_df_reverses rowsSample).1, ?_⟩
  have h := (table_df_reverses rowsSample).2.2 0 (by decide)
  simpa using h

/-- C10: `delete_matching` with an empty filter mapping generates a
statement with an empty `WHERE` condition, which the backend rejects:
the call raises (an error result) and never yields a table — in
particular it does not delete all rows. -/
theorem delete_matching_empty_filter_errors (n : ℕ) (rows : List StoredRow) :
    (∃ e : String, Observation.delete_matching n [] rows = Except.error e) ∧
    ∀ rows2 : List StoredRow,
      Observation.delete_matching n [] rows ≠ Except.ok rows2 := by
  constructor
  · exact ⟨_, rfl⟩
  · intro rows2 h
    exact absurd h (by simp [Observation.delete_matching])

/-- C2: for every nonempty filter set matched by exactly `K ≥ 1` stored
rows and every bound `m ≥ 1`, `delete_matching` succeeds and removes
exactly `min m K` matching rows: the count of matching rows drops to
`K - min m K`, the non-matching rows are untouched (their subsequence
is preserved verbatim), and the table shrinks by exactly `min m K` — in
particular for `m > K` exactly `K` rows go and no error is raised. -/
theorem delete_matching_bounded (m K : ℕ) (kwargs : List (String × SQLValue))
    (conds : List (Col × SQLValue)) (rows : List StoredRow)
    (hkw : kwargs ≠ []) (hres : resolveCols kwargs = some conds)
    (hK : rows.countP (rowMatches conds) = K) (hK1 : 1 ≤ K) (hm : 1 ≤ m) :
    ∃ rows2 : List StoredRow,
      Observation.delete_matching m kwargs rows = Except.ok rows2 ∧
      rows2.countP (rowMatches conds) = K - min m K ∧
      rows2.filter (fun r => ! rowMatches conds r)
        = rows.filter (fun r => ! rowMatches conds r) ∧
      rows2.length = rows.length - min m K := by
  refine ⟨deleteFirstN (rowMatches conds) m rows, ?_, ?_, ?_, ?_⟩
  · unfold Observation.delete_matching
    rw [if_neg (by simpa [List.isEmpty_iff] using hkw), hres]
  · rw [deleteFirstN_countP, hK]
  · exact deleteFirstN_filter_not _ m rows
  · rw [deleteFirstN_length, hK]

theorem delete_matching_bounded_witness :
    ∃ rows2 : List StoredRow,
      Observation.delete_matching 5 [("state", SQLValue.VStr "Texas")] rowsSample
        = Except.ok rows2 ∧
      rows2.countP (rowMatches [(Col.State, SQLValue.VStr "Texas")]) = 2 - min 5 2 ∧
      rows2.filter (fun r => ! rowMatches [(Col.State, SQLValue.VStr "Texas")] r)
        = rowsSample.filter (fun r => ! rowMatches [(Col.State, SQLValue.VStr "Texas")] r) ∧
      rows2.length = rowsSample.length - min 5 2 :=
  delete_matching_bounded 5 2 [("state", SQLValue.VStr "Texas")]
    [(Col.State, SQLValue.VStr "Texas")] rowsSample (by decide) (by decide)
    (by decide) (by decide) (by decide)

/-- C8: `create_table` is idempotent in shape: after any call (from any
prior table state, existing or not) the fetched table is non-empty with
row count equal to the synthetic cardinality of `get_test_data` (750
for the repository vocabulary), a second call from any other state and
with fresh random draws yields the same count, and the two seeded
tables agree on everything except the random `Price` column. -/
theorem create_table_reset_shape (old1 old2 : List StoredRow) (today : PyDate)
    (z1 z2 : ℕ → ℚ) (now : ℕ) :
    (Observation.table_df (Observation.create_table repoVocab today z1 now old1)).length
      = (Observation.get_test_data repoVocab today z1).length ∧
    (Observation.table_df (Observation.create_table repoVocab today z1 now old1)).length
      = 750 ∧
    Observation.create_table repoVocab today z1 now old1 ≠ [] ∧
    (Observation.table_df (Observation.create_table repoVocab today z2 now old2)).length
      = (Observation.table_df (Observation.create_table repoVocab today z1 now old1)).length ∧
    (Observation.create_table repoVocab today z1 now old1).map dropPrice
      = (Observation.create_table repoVocab today z2 now old2).map dropPrice := by
  have hlen : ∀ (z : ℕ → ℚ) (old : List StoredRow),
      (Observation.table_df (Observation.create_table repoVocab today z now old)).length
        = 750 := by
    intro z old
    unfold Observation.table_df Observation.create_table
    rw [List.length_reverse, List.length_map, get_test_data_length]
    rfl
  have hdrop : ∀ (z : ℕ → ℚ) (old : List StoredRow),
      (Observation.create_table repoVocab today z now old).map dropPrice
        = (combos repoVocab today).enum.map (fun ic =>
            (ic.2.Date, ic.2.Item, ic.2.Category, ic.2.State, ic.2.City, now)) := by
    intro z old
    unfold Observation.create_table Observation.get_test_data
    rw [List.map_map, List.map_map]
    rfl
  refine ⟨?_, hlen z1 old1, ?_, ?_, ?_⟩
  · unfold Observation.table_df Observation.create_table
    rw [List.length_reverse, List.length_map]
  · intro h
    have h1 := hlen z1 old1
    rw [h] at h1
    simp [Observation.table_df] at h1
  · rw [hlen z1 old1, hlen z2 old2]
  · rw [hdrop z1 old1, hdrop z2 old2]

/-- C5: with the fixture vocabulary (one category `Food` with the
single item `Eggs`, one state `Texas` with the single city `Dallas`,
base price 3.00 and state scale `(1.0, 0.0)`), `get_test_data` returns
exactly `1 × 1 × 10 × 5 = 50` records, and — the zero-variance Gaussian
draw returning its mean — every record's price is exactly 3.00,
whatever the draws. -/
theorem get_test_data_fixture_example (today : PyDate) (z : ℕ → ℚ) :
    (Observation.get_test_data fixtureVocab today z).length = 50 ∧
    ∀ r ∈ Observation.get_test_data fixtureVocab today z, r.Price = 3 := by
  constructor
  · rw [get_test_data_length]
    rfl
  · intro r hr
    obtain ⟨⟨ci, hci, _, hitem⟩, ⟨sc, hsc, hstate, _⟩, ⟨i, hprice⟩⟩ :=
      mem_get_test_data hr
    have hci2 : ci = ("Food", ["Eggs"]) := by
      simpa [fixtureVocab] using hci
    have hsc2 : sc = ("Texas", ["Dallas"]) := by
      simpa [fixtureVocab] using hsc
    subst hci2
    subst hsc2
    have hitem2 : r.Item = "Eggs" := by
      simpa using hitem
    rw [hprice, hitem2, hstate]
    norm_num [fixtureVocab]

theorem get_test_data_fixture_example_witness :
    (Observation.get_test_data fixtureVocab ⟨2022, 1, 10⟩ (fun _ => 2)).length = 50 ∧
    ((Observation.get_test_data fixtureVocab ⟨2022, 1, 10⟩ (fun _ => 2)).headD
      ⟨⟨0, 0, 0⟩, "", "", "", "", 0⟩).Price = 3 := by
  have hthm := get_test_data_fixture_example ⟨2022, 1, 10⟩ (fun _ => 2)
  refine ⟨hthm.1, ?_⟩
  have hne : Observation.get_test_data fixtureVocab ⟨2022, 1, 10⟩ (fun _ => 2) ≠ [] := by
    intro h
    have hlen := hthm.1
    rw [h] at hlen
    exact absurd hlen (by decide)
  obtain ⟨a, L, hl⟩ := List.exists_cons_of_ne_nil hne
  rw [hl, List.headD_cons]
  exact hthm.2 a (by rw [hl]; exact List.mem_cons_self a L)

/-- Every record generated from the repository vocabulary has price
`m + m * s * z i` for a scaled mean `m > 0` and a relative standard
deviation `s` between one tenth and one quarter. -/
theorem repo_price_shape {today : PyDate} {z : ℕ → ℚ} {r : TestRec}
    (hr : r ∈ Observation.get_test_data repoVocab today z) :
    ∃ m s : ℚ, ∃ i : ℕ,
      r.Price = m + m * s * z i ∧ 0 < m ∧ 1/10 ≤ s ∧ s ≤ 1/4 := by
  obtain ⟨⟨ci, hci, hcat, hitem⟩, ⟨sc, hsc, hstate, hcity⟩, ⟨i, hprice⟩⟩ :=
    mem_get_test_data hr
  have hci2 : ci = ("Food", ["USDA Grade-A eggs, Dozen"]) ∨
      ci = ("Fuel", ["Regular Gasoline, Gallon"]) ∨
      ci = ("Clothing", ["Wool Socks, Pair"]) := by
    simpa [repoVocab] using hci
  have hsc2 : sc = ("California", ["Los Angelos", "San Francisco"]) ∨
      sc = ("New York", ["New York City"]) ∨
      sc = ("Texas", ["Austin", "Dallas"]) := by
    simpa [repoVocab] using hsc
  have hbase : 0 < repoVocab.item_base_price r.Item := by
    rcases hci2 with rfl | rfl | rfl <;>
      · simp only [List.mem_singleton] at hitem
        rw [hitem]
        simp [repoVocab]
        try norm_num
  have hmu : 0 < (repoVocab.state_price_mu_std r.State).1 ∧
      1/10 ≤ (repoVocab.state_price_mu_std r.State).2 ∧
      (repoVocab.state_price_mu_std r.State).2 ≤ 1/4 := by
    rcases hsc2 with rfl | rfl | rfl <;>
      · rw [hstate]
        simp [repoVocab]
        try norm_num
  exact ⟨repoVocab.item_base_price r.Item * (repoVocab.state_price_mu_std r.State).1,
    (repoVocab.state_price_mu_std r.State).2, i, hprice,
    mul_pos hbase hmu.1, hmu.2.1, hmu.2.2⟩

/-- C4 counterexample: the claim `every generated record has price > 0`
is false as stated — with every Gaussian draw at twenty standard
deviations below the mean, the (non-empty) generated table contains a
record with non-positive price. -/
theorem get_test_data_price_pos_counterexample :
    ¬ (∀ r ∈ Observation.get_test_data repoVocab ⟨2022, 1, 10⟩ (fun _ => -20),
        0 < r.Price) := by
  intro hall
  have hlen : (Observation.get_test_data repoVocab ⟨2022, 1, 10⟩
      (fun _ => -20)).length = 750 := by
    rw [get_test_data_length]
    rfl
  have hne : Observation.get_test_data repoVocab ⟨2022, 1, 10⟩ (fun _ => -20) ≠ [] := by
    intro h
    rw [h] at hlen
    exact absurd hlen (by decide)
  obtain ⟨a, L, hl⟩ := List.exists_cons_of_ne_nil hne
  have hmem : a ∈ Observation.get_test_data repoVocab ⟨2022, 1, 10⟩ (fun _ => -20) := by
    rw [hl]
    exact List.mem_cons_self a L
  have hpos := hall a hmem
  obtain ⟨m, s, i, hprice, hm, hs1, hs2⟩ := repo_price_shape hmem
  rw [hprice] at hpos
  have h2 : m * (1/10) ≤ m * s := mul_le_mul_of_nonneg_left hs1 hm.le
  have h3 : m + m * s * (-20) = m - 20 * (m * s) := by ring
  rw [h3] at hpos
  linarith

/-- C4 (amended): `get_test_data` returns exactly
`(ΣcategoryItems) × (ΣstateCities) × 10 × 5` records for every
vocabulary, and — since each price is a Gaussian draw, not a truncated
one — every price is positive provided each standard-normal draw stays
above −4 (within four standard deviations below its mean); a
sufficiently negative draw makes a price non-positive. -/
theorem get_test_data_card_and_price :
    (∀ (V : Vocab) (today : PyDate) (z : ℕ → ℚ),
      (Observation.get_test_data V today z).length
        = itemCount V * cityCount V * 10 * 5) ∧
    (∀ (today : PyDate) (z : ℕ → ℚ), (∀ i, -4 < z i) →
      ∀ r ∈ Observation.get_test_data repoVocab today z, 0 < r.Price) := by
  refine ⟨get_test_data_length, ?_⟩
  intro today z hz r hr
  obtain ⟨m, s, i, hprice, hm, hs1, hs2⟩ := repo_price_shape hr
  rw [hprice]
  exact gauss_price_pos hm (by linarith) hs2 (hz i)

theorem get_test_data_card_and_price_witness :
    (Observation.get_test_data repoVocab ⟨2022, 1, 10⟩ (fun _ => 0)).length
      = itemCount repoVocab * cityCount repoVocab * 10 * 5 ∧
    0 < ((Observation.get_test_data repoVocab ⟨2022, 1, 10⟩ (fun _ => 0)).headD
      ⟨⟨0, 0, 0⟩, "", "", "", "", 1⟩).Price := by
  have hcard := get_test_data_card_and_price.1 repoVocab ⟨2022, 1, 10⟩ (fun _ => 0)
  refine ⟨hcard, ?_⟩
  have hne : Observation.get_test_data repoVocab ⟨2022, 1, 10⟩ (fun _ => 0) ≠ [] := by
    intro h
    rw [h] at hcard
    exact absurd hcard (by decide)
  obtain ⟨a, L, hl⟩ := List.exists_cons_of_ne_nil hne
  rw [hl, List.headD_cons]
  exact get_test_data_card_and_price.2 ⟨2022, 1, 10⟩ (fun _ => 0)
    (fun i => by norm_num) a (by rw [hl]; exact List.mem_cons_self a L)
/-! ### Rendering shape lemmas for the value encoder -/

theorem decodeDate_fmtDate {y m d : ℕ} (hy : y < 10000) (hm : m < 100) (hd : d < 100) :
    decodeDate (fmtDate ⟨y, m, d⟩) = (y, m, d) := by
  have h4 : (padNum 4 y).length = 4 :=
    length_padNum_of_lt (by norm_num) (by simpa using hy)
  have h2m : (padNum 2 m).length = 2 :=
    length_padNum_of_lt (by norm_num) (by simpa using hm)
  have h2d : (padNum 2 d).length = 2 :=
    length_padNum_of_lt (by norm_num) (by simpa using hd)
  have hL : fmtDate ⟨y, m, d⟩
      = padNum 4 y ++ ([Char.ofNat 45] ++ (padNum 2 m ++ ([Char.ofNat 45] ++ padNum 2 d))) := by
    unfold fmtDate
    simp
  unfold decodeDate
  rw [hL]
  have htake4 : (padNum 4 y ++ ([Char.ofNat 45] ++ (padNum 2 m
      ++ ([Char.ofNat 45] ++ padNum 2 d)))).take 4 = padNum 4 y := List.take_left' h4
  have hdrop5 : (padNum 4 y ++ ([Char.ofNat 45] ++ (padNum 2 m
      ++ ([Char.ofNat 45] ++ padNum 2 d)))).drop 5
      = padNum 2 m ++ ([Char.ofNat 45] ++ padNum 2 d) := by
    rw [← List.append_assoc]
    exact List.drop_left' (by simp [h4])
  have hdrop8 : (padNum 4 y ++ ([Char.ofNat 45] ++ (padNum 2 m
      ++ ([Char.ofNat 45] ++ padNum 2 d)))).drop 8 = padNum 2 d := by
    rw [← List.append_assoc, ← List.append_assoc, ← List.append_assoc]
    exact List.drop_left' (by simp [h4, h2m])
  rw [htake4, hdrop5, hdrop8, List.take_left' h2m,
    decodeNum_padNum, decodeNum_padNum, decodeNum_padNum]

theorem fmtDate_length {y m d : ℕ} (hy : y < 10000) (hm : m < 100) (hd : d < 100) :
    (fmtDate ⟨y, m, d⟩).length = 10 := by
  have h4 : (padNum 4 y).length = 4 :=
    length_padNum_of_lt (by norm_num) (by simpa using hy)
  have h2m : (padNum 2 m).length = 2 :=
    length_padNum_of_lt (by norm_num) (by simpa using hm)
  have h2d : (padNum 2 d).length = 2 :=
    length_padNum_of_lt (by norm_num) (by simpa using hd)
  simp [fmtDate, h4, h2m, h2d]

theorem fmtDatetime_length {t : PyDatetime} (hy : t.year < 10000) (hmo : t.month < 100)
    (hda : t.day < 100) (hh : t.hour < 100) (hmi : t.minute < 100) (hse : t.second < 100)
    (hus : t.micro < 1000000) :
    (fmtDatetime t).length = 26 := by
  have hdate : (fmtDate t.dateOf).length = 10 := fmtDate_length hy hmo hda
  have h2h : (padNum 2 t.hour).length = 2 :=
    length_padNum_of_lt (by norm_num) (by simpa using hh)
  have h2m : (padNum 2 t.minute).length = 2 :=
    length_padNum_of_lt (by norm_num) (by simpa using hmi)
  have h2s : (padNum 2 t.second).length = 2 :=
    length_padNum_of_lt (by norm_num) (by simpa using hse)
  have h6 : (padNum 6 t.micro).length = 6 :=
    length_padNum_of_lt (by norm_num) (by simpa using hus)
  simp [fmtDatetime, hdate, h2h, h2m, h2s, h6]

theorem quoteWrapped_sqWrap (l : List Char) : quoteWrapped (sqWrap l) := by
  constructor
  · rfl
  · show (quoteChar :: (l ++ [quoteChar])).getLast? = some quoteChar
    rw [← List.cons_append]
    exact List.getLast?_concat _

theorem not_quoteWrapped_of_head {s : String} {c : Char}
    (hhead : s.data.head? = some c) (hc : c ≠ quoteChar) : ¬ quoteWrapped s := by
  intro hw
  rw [hw.1] at hhead
  exact hc (Option.some.inj hhead).symm

theorem intRepr_head (i : ℤ) :
    ∃ c, (intRepr i).data.head? = some c ∧ c.toNat ≠ 39 := by
  obtain ⟨c, cs, hcs, h48, h57⟩ := head_natChars_digit i.natAbs
  by_cases hi : i < 0
  · refine ⟨Char.ofNat 45, ?_, by decide⟩
    simp [intRepr, hi]
  · refine ⟨c, ?_, by omega⟩
    simp [intRepr, hi, hcs]

theorem floatRepr_head (q : ℚ) :
    ∃ c, (floatRepr q).data.head? = some c ∧ c.toNat ≠ 39 := by
  obtain ⟨c, cs, hcs, h48, h57⟩ := head_natChars_digit q.num.natAbs
  by_cases hq : q.num < 0
  · refine ⟨Char.ofNat 45, ?_, by decide⟩
    simp [floatRepr, hq]
  · refine ⟨c, ?_, by omega⟩
    simp [floatRepr, hq, hcs]

theorem sqWrap_ne_empty (l : List Char) : sqWrap l ≠ "" := by
  intro h
  have h2 : quoteChar :: (l ++ [quoteChar]) = ("" : String).data :=
    congrArg String.data h
  simp at h2

theorem intRepr_ne_empty (i : ℤ) : intRepr i ≠ "" := by
  intro h
  have h2 : ((if i < 0 then [Char.ofNat 45] else []) ++ natChars i.natAbs)
      = ("" : String).data := congrArg String.data h
  rcases List.append_eq_nil.mp h2 with ⟨-, h3⟩
  exact natChars_ne_nil _ h3

theorem floatRepr_ne_empty (q : ℚ) : floatRepr q ≠ "" := by
  intro h
  have h2 : ((if q.num < 0 then [Char.ofNat 45] else []) ++
      (natChars q.num.natAbs ++ Char.ofNat 47 :: natChars q.den))
      = ("" : String).data := congrArg String.data h
  rcases List.append_eq_nil.mp h2 with ⟨-, h3⟩
  rcases List.append_eq_nil.mp h3 with ⟨h4, -⟩
  exact natChars_ne_nil _ h4

/-- C6: the value encoder realises the specified type-to-literal map:
text has embedded single quotes doubled (recoverable by the SQL lexer)
and is quote-wrapped; timestamps render as
`YYYY-MM-DD HH:MM:SS.ffffff` (26 characters for in-range fields) and
plain dates as `YYYY-MM-DD` (10 characters, decoding back to the three
fields) — and a timestamp, although it passes the `date` instance check
too, is never misclassified into the plain-date branch; booleans render
as unquoted `1`/`0`; only text, date and timestamp results are
quote-wrapped; and encoding is total, producing a non-empty literal for
every supported value. -/
theorem sqlize_value_encoder_spec :
    (∀ s : String, sqlize (SQLValue.VStr s) = sqWrap (pyReplaceChars s.data) ∧
      unescapeChars (pyReplaceChars s.data) = s.data) ∧
    (∀ t : PyDatetime, SQLValue.is_date (SQLValue.VDatetime t) = true ∧
      sqlize (SQLValue.VDatetime t) = sqWrap (fmtDatetime t)) ∧
    (∀ d : PyDate, sqlize (SQLValue.VDate d) = sqWrap (fmtDate d)) ∧
    (∀ y m d : ℕ, y < 10000 → m < 100 → d < 100 →
      (fmtDate ⟨y, m, d⟩).length = 10 ∧ decodeDate (fmtDate ⟨y, m, d⟩) = (y, m, d)) ∧
    (∀ t : PyDatetime, t.year < 10000 → t.month < 100 → t.day < 100 → t.hour < 100 →
      t.minute < 100 → t.second < 100 → t.micro < 1000000 →
      (fmtDatetime t).length = 26) ∧
    (sqlize (SQLValue.VBool true) = "1" ∧ sqlize (SQLValue.VBool false) = "0") ∧
    ((∀ s : String, quoteWrapped (sqlize (SQLValue.VStr s))) ∧
      (∀ d : PyDate, quoteWrapped (sqlize (SQLValue.VDate d))) ∧
      (∀ t : PyDatetime, quoteWrapped (sqlize (SQLValue.VDatetime t)))) ∧
    ((∀ i : ℤ, ¬ quoteWrapped (sqlize (SQLValue.VInt i))) ∧
      (∀ q : ℚ, ¬ quoteWrapped (sqlize (SQLValue.VFloat q))) ∧
      (∀ b : Bool, ¬ quoteWrapped (sqlize (SQLValue.VBool b)))) ∧
    (∀ v : SQLValue, sqlize v ≠ "") := by
  refine ⟨fun s => ⟨sqlize_VStr s, unescape_pyReplace s.data⟩,
    fun t => ⟨rfl, sqlize_VDatetime t⟩,
    sqlize_VDate,
    fun y m d hy hm hd => ⟨fmtDate_length hy hm hd, decodeDate_fmtDate hy hm hd⟩,
    fun t hy hmo hda hh hmi hse hus => fmtDatetime_length hy hmo hda hh hmi hse hus,
    ⟨by simpa using sqlize_VBool true, by simpa using sqlize_VBool false⟩,
    ⟨fun s => by rw [sqlize_VStr]; exact quoteWrapped_sqWrap _,
      fun d => by rw [sqlize_VDate]; exact quoteWrapped_sqWrap _,
      fun t => by rw [sqlize_VDatetime]; exact quoteWrapped_sqWrap _⟩,
    ⟨?_, ?_, ?_⟩, ?_⟩
  · intro i
    obtain ⟨c, hhead, hcne⟩ := intRepr_head i
    rw [sqlize_VInt]
    exact not_quoteWrapped_of_head hhead (fun hEq => hcne (by rw [hEq]; decide))
  · intro q
    obtain ⟨c, hhead, hcne⟩ := floatRepr_head q
    rw [sqlize_VFloat]
    exact not_quoteWrapped_of_head hhead (fun hEq => hcne (by rw [hEq]; decide))
  · intro b
    cases b
    · rw [show sqlize (SQLValue.VBool false) = "0" from by simpa using sqlize_VBool false]
      exact @not_quoteWrapped_of_head "0" (Char.ofNat 48) (by decide) (by decide)
    · rw [show sqlize (SQLValue.VBool true) = "1" from by simpa using sqlize_VBool true]
      exact @not_quoteWrapped_of_head "1" (Char.ofNat 49) (by decide) (by decide)
  · intro v
    cases v with
    | VNone => decide
    | VStr s => rw [sqlize_VStr]; exact sqWrap_ne_empty _
    | VInt i => rw [sqlize_VInt]; exact intRepr_ne_empty i
    | VFloat q => rw [sqlize_VFloat]; exact floatRepr_ne_empty q
    | VBool b =>
        cases b
        · rw [show sqlize (SQLValue.VBool false) = "0" from by
            simpa using sqlize_VBool false]
          decide
        · rw [show sqlize (SQLValue.VBool true) = "1" from by
            simpa using sqlize_VBool true]
          decide
    | VDate d => rw [sqlize_VDate]; exact sqWrap_ne_empty _
    | VDatetime t => rw [sqlize_VDatetime]; exact sqWrap_ne_empty _

theorem sqlize_value_encoder_spec_witness :
    (fmtDate ⟨2022, 1, 10⟩).length = 10 ∧
    decodeDate (fmtDate ⟨2022, 1, 10⟩) = (2022, 1, 10) ∧
    (fmtDatetime ⟨2022, 1, 10, 3, 4, 5, 6⟩).length = 26 := by
  obtain ⟨-, -, -, h4, h5, -⟩ := sqlize_value_encoder_spec
  obtain ⟨hl, hdec⟩ := h4 2022 1 10 (by norm_num) (by norm_num) (by norm_num)
  exact ⟨hl, hdec, h5 ⟨2022, 1, 10, 3, 4, 5, 6⟩ (by norm_num) (by norm_num)
    (by norm_num) (by norm_num) (by norm_num) (by norm_num) (by norm_num)⟩

theorem create_table_reset_shape_witness :
    (Observation.table_df (Observation.create_table repoVocab ⟨2022, 1, 10⟩
      (fun _ => 0) 3 [])).length = 750 ∧
    (Observation.create_table repoVocab ⟨2022, 1, 10⟩ (fun _ => 0) 3 []).map dropPrice
      = (Observation.create_table repoVocab ⟨2022, 1, 10⟩
          (fun _ => 1) 3 rowsSample).map dropPrice := by
  have h := create_table_reset_shape [] rowsSample ⟨2022, 1, 10⟩
    (fun _ => 0) (fun _ => 1) 3
  exact ⟨h.2.1, h.2.2.2.2⟩

theorem delete_matching_empty_filter_errors_witness :
    (∃ e : String, Observation.delete_matching 1 [] rowsSample = Except.error e) ∧
    ∀ rows2 : List StoredRow,
      Observation.delete_matching 1 [] rowsSample ≠ Except.ok rows2 :=
  delete_matching_empty_filter_errors 1 rowsSample
